import Mathlib

/-!
Verification of the mailnir mail-merge core against its specification.

This file gives a shallow embedding of the Rust sources under
`src-tauri/src/` (join engine, renderer, validator, SMTP dispatcher) and
proves or refutes the frozen claims about them.

Modelling conventions:
- `serde_json::Value` is modelled by `Value`; numbers are modelled as `Int`
  (the repository's row values are scalars per the spec; exact equality,
  no coercion, is preserved on this fragment).
- Rust `HashMap` values used only through `get` are modelled as
  association lists with first-match lookup.
- `Template.sources` is a Rust `std::collections::HashMap`; we model it as
  the list of its entries in the map's iteration order (which Rust does
  not guarantee to be the YAML declaration order).
- Fallible Rust functions returning `Result` become `Except`.
-/

/-- Model of `serde_json::Value`, with serde's variant names. Numbers are
modelled as integers (exact equality, no coercion, is what matters here). -/
inductive Value where
  | null : Value
  | boolean (b : Bool) : Value
  | number (n : Int) : Value
  | string (s : String) : Value
  | array (elems : List Value) : Value
  | object (entries : List (String × Value)) : Value

mutual

/-- Structural equality on values, the `PartialEq` of `serde_json::Value`:
exact equality per kind, with no coercion between kinds. -/
def Value.beq : Value → Value → Bool
  | .null, .null => true
  | .boolean p, .boolean q => p == q
  | .number p, .number q => p == q
  | .string p, .string q => p == q
  | .array ps, .array qs => Value.beqElems ps qs
  | .object ps, .object qs => Value.beqEntries ps qs
  | _, _ => false

/-- Pointwise equality of JSON array elements. -/
def Value.beqElems : List Value → List Value → Bool
  | [], [] => true
  | _, [] => false
  | [], _ => false
  | p :: ps, q :: qs => Value.beq p q && Value.beqElems ps qs

/-- Pointwise equality of JSON object entries (serde maps hold their entries
in map order, and entry-sequence equality is all the embedded code ever
distinguishes). -/
def Value.beqEntries : List (String × Value) → List (String × Value) → Bool
  | [], [] => true
  | _, [] => false
  | [], _ => false
  | p :: ps, q :: qs => p.1 == q.1 && Value.beq p.2 q.2 && Value.beqEntries ps qs

end

/-- Rust `Value::as_array`: `some` exactly on arrays. -/
def Value.asArray : Value → Option (List Value)
  | .array xs => some xs
  | _ => none

/-- Rust `Value::get(key)` with a string key: object field lookup, `none` otherwise. -/
def Value.get (j : Value) (k : String) : Option Value :=
  match j with
  | .object fields => lookupField fields k
  | _ => none
where
  lookupField : List (String × Value) → String → Option Value
    | [], _ => none
    | (k', v) :: rest, k => if k' = k then some v else lookupField rest k

/-- A merged per-row context: `serde_json::Map<String, Value>` keyed by namespace. -/
abbrev Ctx := List (String × Value)

/-- Rust `Map::insert`: replace the value of an existing key, else append. -/
def ctxInsert : Ctx → String → Value → Ctx
  | [], k, v => [(k, v)]
  | (k', v') :: rest, k, v =>
    if k' = k then (k, v) :: rest else (k', v') :: ctxInsert rest k v

/-- Rust `Map::get` on a context. -/
def ctxGet : Ctx → String → Option Value
  | [], _ => none
  | (k', v) :: rest, k => if k' = k then some v else ctxGet rest k

/-- The `sources : HashMap<String, Value>` argument (namespace name → row-set). -/
abbrev SrcMap := List (String × Value)

/-- Rust `HashMap::get` on the sources map. -/
def srcGet : SrcMap → String → Option Value
  | [], _ => none
  | (k', v) :: rest, k => if k' = k then some v else srcGet rest k

/-- Rust `str::split_once('.')`: split at the first `'.'`, `none` when absent. -/
def splitOnceDotChars : List Char → Option (List Char × List Char)
  | [] => none
  | c :: rest =>
    if c = '.' then some ([], rest)
    else (splitOnceDotChars rest).map (fun p => (c :: p.1, p.2))

/-- Rust `str::split_once('.')` on strings. -/
def splitOnceDot (s : String) : Option (String × String) :=
  (splitOnceDotChars s.toList).map (fun p => (p.1.asString, p.2.asString))

/-- Rust `template::types::BodyFormat`. -/
inductive BodyFormat where
  | markdown : BodyFormat
  | html : BodyFormat
  | text : BodyFormat
  deriving DecidableEq, Repr

/-- Rust `template::types::SourceConfig`. The `join` map is a `HashMap<String, String>`
consumed only through order-insensitive iteration (`all`); we keep its entries
as a list. -/
structure SourceConfig where
  primary : Option Bool
  join : Option (List (String × String))
  many : Option Bool
  deriving DecidableEq, Repr

/-- Rust `template::types::Template`. `sources` is the entry list of the Rust
`HashMap<String, SourceConfig>` in iteration order. -/
structure Template where
  sources : List (String × SourceConfig)
  «to» : String
  cc : Option String
  bcc : Option String
  subject : String
  body : String
  attachments : Option String
  body_format : Option BodyFormat
  stylesheet : Option String
  style : Option String
  deriving DecidableEq

/-- The subset of `MailnirError` reachable from the embedded functions.
Rust `PathBuf` payloads are modelled as strings. -/
inductive MailnirError where
  | Io : String → String → MailnirError
  | NoPrimarySource : MailnirError
  | InvalidDataShape : String → String → MailnirError
  | JoinMissingMatch : String → Nat → MailnirError
  | JoinAmbiguousMatch : String → Nat → Nat → MailnirError
  | HandlebarsRender : String → String → MailnirError
  | CssInline : String → MailnirError
  | StylesheetNotFound : String → MailnirError
  deriving DecidableEq, Repr

/-- Rust `.iter().enumerate()` starting at `i`. -/
def enumFrom {α : Type} : Nat → List α → List (Nat × α)
  | _, [] => []
  | i, x :: xs => (i, x) :: enumFrom (i + 1) xs

/-- The closure inside `join::predicates_match`: one predicate
`row[join_key] == ctx[ref_ns][ref_field]` holds only when the reference
splits on `'.'` and both sides are present and equal. -/
def predicate_holds (row : Value) (ctx : Ctx) (p : String × String) : Bool :=
  match splitOnceDot p.2 with
  | none => false
  | some (refNs, refField) =>
    match (ctxGet ctx refNs).bind (fun ns => ns.get refField), row.get p.1 with
    | some e, some a => Value.beq e a
    | _, _ => false

/-- Rust `join::predicates_match`: all join predicates must hold. -/
def predicates_match (row : Value) (joinMap : List (String × String)) (ctx : Ctx) : Bool :=
  joinMap.all (predicate_holds row ctx)

/-- A pre-validated secondary source: `(ns_name, ns_cfg, array)` from
`build_contexts_lenient`. -/
structure SecondarySource where
  name : String
  cfg : SourceConfig
  rows : List Value

/-- The `matches` filter inside the secondary loop of `build_single_context`.
`cfg.join` is always present here (the Rust code asserts this with
`expect("secondary always has join")`), so the default is never used. -/
def secondary_matches (s : SecondarySource) (ctx : Ctx) : List Value :=
  s.rows.filter fun row => predicates_match row (s.cfg.join.getD []) ctx

/-- The secondary-namespace loop of `join::build_single_context`:
`many` collapses all matches into an array; otherwise exactly one match is
required, zero is `JoinMissingMatch` and two or more `JoinAmbiguousMatch`. -/
def applySecondaries (entryIndex : Nat) (ctx : Ctx) :
    List SecondarySource → Except MailnirError Ctx
  | [] => .ok ctx
  | s :: rest =>
    let found := secondary_matches s ctx
    if s.cfg.many == some true then
      applySecondaries entryIndex (ctxInsert ctx s.name (.array found)) rest
    else
      match found with
      | [] => .error (.JoinMissingMatch s.name entryIndex)
      | [m] => applySecondaries entryIndex (ctxInsert ctx s.name m) rest
      | more => .error (.JoinAmbiguousMatch s.name entryIndex more.length)

/-- Rust `join::build_single_context`: primary entry, then global namespaces
(only when present in `sources`), then the secondary joins. -/
def build_single_context (primaryName : String) (primaryEntry : Value) (entryIndex : Nat)
    (globalNames : List String) (secondarySources : List SecondarySource)
    (sources : SrcMap) : Except MailnirError Ctx :=
  let ctx : Ctx := ctxInsert [] primaryName primaryEntry
  let ctx := globalNames.foldl
    (fun c g => match srcGet sources g with
      | some data => ctxInsert c g data
      | none => c) ctx
  applySecondaries entryIndex ctx secondarySources

/-- The primary-namespace search in `build_contexts_lenient`
(`find(|(_, cfg)| cfg.primary == Some(true))`). -/
def findPrimaryName (t : Template) : Option String :=
  (t.sources.find? fun p => p.2.primary == some true).map (·.1)

/-- The global-namespace filter in `build_contexts_lenient`. -/
def globalNamesOf (t : Template) (primaryName : String) : List String :=
  (t.sources.filter fun p =>
    p.1 != primaryName && p.2.primary != some true && p.2.join.isNone).map (·.1)

/-- The secondary-namespace filter in `build_contexts_lenient`. -/
def secondaryCfgOf (t : Template) (primaryName : String) : List (String × SourceConfig) :=
  t.sources.filter fun p => p.1 != primaryName && p.2.join.isSome

/-- Pre-validation of secondary source shapes (`collect::<Result<_>>` over the
secondary configs): the first entry whose backing value is missing or not an
array aborts with `InvalidDataShape`. -/
def validateSecondaries (cfgs : List (String × SourceConfig)) (sources : SrcMap) :
    Except MailnirError (List SecondarySource) :=
  match cfgs with
  | [] => .ok []
  | (nsName, cfg) :: rest =>
    match (srcGet sources nsName).bind Value.asArray with
    | none => .error (.InvalidDataShape nsName "secondary source must be an array")
    | some array =>
      (validateSecondaries rest sources).map (fun tail => ⟨nsName, cfg, array⟩ :: tail)

/-- Rust `join::build_contexts_lenient`: structural checks (primary present and an
array, secondary backings arrays), then one independent result per primary
entry. -/
def build_contexts_lenient (t : Template) (sources : SrcMap) :
    Except MailnirError (List (Except MailnirError Ctx)) :=
  match findPrimaryName t with
  | none => .error .NoPrimarySource
  | some primaryName =>
    match (srcGet sources primaryName).bind Value.asArray with
    | none => .error (.InvalidDataShape primaryName "primary source must be an array")
    | some primaryArray =>
      match validateSecondaries (secondaryCfgOf t primaryName) sources with
      | .error e => .error e
      | .ok secondarySources =>
        .ok ((enumFrom 0 primaryArray).map fun p =>
          build_single_context primaryName p.2 p.1
            (globalNamesOf t primaryName) secondarySources sources)

/-- Rust `join::build_contexts`: the strict wrapper, short-circuiting on the first
per-entry error (`into_iter().collect()`). -/
def build_contexts (t : Template) (sources : SrcMap) :
    Except MailnirError (List Ctx) :=
  match build_contexts_lenient t sources with
  | .error e => .error e
  | .ok results => collectResults results
where
  collectResults : List (Except MailnirError Ctx) → Except MailnirError (List Ctx)
    | [] => .ok []
    | .error e :: _ => .error e
    | .ok c :: rest => (collectResults rest).map (c :: ·)

def cfgPrimary : SourceConfig := ⟨some true, none, none⟩

def cfgJoinClass : SourceConfig := ⟨none, some [("class_id", "classes.id")], none⟩

def tmplC2 : Template :=
  ⟨[("classes", cfgPrimary), ("inst", cfgJoinClass)], "a", none, none, "b", "c", none, none, none, none⟩

def srcC2 : SrcMap :=
  [("classes", .array [.object [("id", .number 1)], .object [("id", .number 99)]]),
   ("inst", .array [.object [("class_id", .number 1), ("name", .string "Prof. Jones")]])]

def ctxC2row0 : Ctx :=
  [("classes", .object [("id", .number 1)]),
   ("inst", .object [("class_id", .number 1), ("name", .string "Prof. Jones")])]

def cfgJoinA : SourceConfig := ⟨none, some [("pid", "p.id")], none⟩

def cfgJoinB : SourceConfig := ⟨none, some [("ref", "a.aid")], none⟩

def srcsC4 : SrcMap :=
  [("p", .array [.object [("id", .number 1)]]),
   ("a", .array [.object [("pid", .number 1), ("aid", .number 7)]]),
   ("b", .array [.object [("ref", .number 7)]])]

def tmplC4a : Template :=
  ⟨[("p", cfgPrimary), ("a", cfgJoinA), ("b", cfgJoinB)], "x", none, none, "s", "b", none, none, none, none⟩

def tmplC4b : Template :=
  ⟨[("p", cfgPrimary), ("b", cfgJoinB), ("a", cfgJoinA)], "x", none, none, "s", "b", none, none, none, none⟩

def tmplC5 : Template :=
  ⟨[("p", cfgPrimary), ("g", ⟨none, none, none⟩)], "x", none, none, "s", "b", none, none, none, none⟩

def tmplNoPrim : Template :=
  ⟨[("p", ⟨none, none, none⟩)], "x", none, none, "s", "b", none, none, none, none⟩

def secInstC1 : SecondarySource :=
  ⟨"inst", cfgJoinClass,
   [.object [("class_id", .number 1), ("name", .string "A")],
    .object [("class_id", .number 2), ("name", .string "B")]]⟩

def ctxC1 : Ctx := [("classes", .object [("id", .number 1)])]

def paC2 : List Value := [.object [("id", .number 1)], .object [("id", .number 99)]]

def ssC2 : List SecondarySource :=
  [⟨"inst", cfgJoinClass, [.object [("class_id", .number 1), ("name", .string "Prof. Jones")]]⟩]

def secC10 : SecondarySource :=
  ⟨"s", ⟨none, some [("pid", "p.id")], none⟩, [.object [("other", .number 3)]]⟩

/-- The tag-stripping character scan of `render::strip_html`: characters
between `<` and `>` are dropped, and `<` / `>` themselves are never emitted. -/
def stripTags (inTag : Bool) : List Char → List Char
  | [] => []
  | c :: rest =>
    if c = '<' then stripTags true rest
    else if c = '>' then stripTags false rest
    else if inTag then stripTags true rest
    else c :: stripTags inTag rest

/-- Rust `str::replace(pat, repl)` recursion, made structural on a fuel argument
so that it evaluates by kernel reduction; the caller passes the input length
as fuel, which always suffices because each step consumes at least one
character. Replaces non-overlapping occurrences left to right; the
replacement output is not rescanned. -/
def replaceFromFuel (pat repl : List Char) : Nat → List Char → List Char
  | 0, s => s
  | _ + 1, [] => []
  | fuel + 1, c :: rest =>
    if pat ≠ [] ∧ pat.isPrefixOf (c :: rest) then
      repl ++ replaceFromFuel pat repl fuel ((c :: rest).drop pat.length)
    else
      c :: replaceFromFuel pat repl fuel rest

/-- Rust `str::replace(pat, repl)` on character lists. -/
def replaceFrom (pat repl s : List Char) : List Char :=
  replaceFromFuel pat repl s.length s

/-- The entity-decoding replace chain at the end of `render::strip_html`,
in source order: `&amp; &lt; &gt; &nbsp; &#39; &quot;`. -/
def decodeEntities (s : List Char) : List Char :=
  replaceFrom "&quot;".toList "\"".toList
    (replaceFrom "&#39;".toList [Char.ofNat 39]
      (replaceFrom "&nbsp;".toList " ".toList
        (replaceFrom "&gt;".toList ">".toList
          (replaceFrom "&lt;".toList "<".toList
            (replaceFrom "&amp;".toList "&".toList s)))))

/-- Rust `render::strip_html`: drop tag content, then decode the six entities. -/
def strip_html (html : String) : String :=
  (decodeEntities (stripTags false html.toList)).asString

/-- Number of `'<'` characters in a character list. -/
def countLt (s : List Char) : Nat := (s.filter (fun c => c = '<')).length

/-- Rust `render::RenderedEmail`. Attachment paths are modelled as strings. -/
structure RenderedEmail where
  «to» : String
  cc : Option String
  bcc : Option String
  subject : String
  html_body : Option String
  text_body : String
  attachments : List String

/-- Failure modes of `std::fs::read_to_string`, as distinguished by
`resolve_css` (`ErrorKind::NotFound` versus anything else). -/
inductive FsError where
  | notFound : FsError
  | other : String → FsError

/-- The external collaborators of the renderer, passed as parameters of the
embedding: `handlebars` strict-mode rendering, `comrak` markdown conversion
(with strikethrough, tables, autolinks and raw HTML enabled inside), `css_inline`
fragment inlining, and the filesystem read used for stylesheets. -/
structure RenderExt where
  hbRender : String → Ctx → Except String String
  mdToHtml : String → String
  inlineFragment : String → String → Except String String
  readFile : String → Except FsError String

/-- Rust `render::render_field`: a handlebars failure is wrapped in
`HandlebarsRender{field, reason}`. -/
def render_field (hbRender : String → Ctx → Except String String)
    (field_name : String) (template_str : String) (context : Ctx) :
    Except MailnirError String :=
  match hbRender template_str context with
  | .ok s => .ok s
  | .error e => .error (.HandlebarsRender field_name e)

/-- Rust `.map(|s| render_field(...)).transpose()?` on an optional template field. -/
def renderOptField (hbRender : String → Ctx → Except String String)
    (field_name : String) (field : Option String) (context : Ctx) :
    Except MailnirError (Option String) :=
  match field with
  | none => .ok none
  | some s => (render_field hbRender field_name s context).map some

/-- Rust `render::effective_body_format`: declared format, defaulting to markdown. -/
def effective_body_format (t : Template) : BodyFormat :=
  t.body_format.getD .markdown

/-- Rust `Path::join`, modelled as string concatenation with a separator. -/
def pathJoin (dir p : String) : String := dir ++ "/" ++ p

/-- Rust `render::resolve_css`: inline `style` wins over a `stylesheet` file;
a missing stylesheet file is `StylesheetNotFound`, other read failures `Io`. -/
def resolve_css (ext : RenderExt) (t : Template) (template_dir : String) :
    Except MailnirError (Option String) :=
  match t.style with
  | some inline_css => .ok (some inline_css)
  | none =>
    match t.stylesheet with
    | some stylesheet_path =>
      let full_path := pathJoin template_dir stylesheet_path
      match ext.readFile full_path with
      | .error .notFound => .error (.StylesheetNotFound full_path)
      | .error (.other m) => .error (.Io full_path m)
      | .ok css => .ok (some css)
    | none => .ok none

/-- Rust `str::rfind(pat)`: start index of the last occurrence of `pat`.
Rust byte indices and character indices agree on the ASCII text involved. -/
def rfindSub (s pat : List Char) : Option Nat :=
  ((List.range (s.length + 1)).filter (fun i => pat.isPrefixOf (s.drop i))).getLast?

/-- Rust `render::apply_css`: with no CSS the HTML passes through unchanged;
otherwise the fragment is wrapped in a `<div>`, inlined by the external
`css_inline`, and the wrapper is stripped again (`find('>')` after `<div`,
`rfind("</div>")`). -/
def apply_css (inlineFragment : String → String → Except String String)
    (html : String) (css : Option String) : Except MailnirError String :=
  match css with
  | none => .ok html
  | some css_str =>
    let wrapped := "<div>" ++ html ++ "</div>"
    match inlineFragment wrapped css_str with
    | .error e => .error (.CssInline e)
    | .ok inlined =>
      if inlined.startsWith "<div" then
        let cs := inlined.toList
        let start := match List.findIdx? (fun ch => ch = '>') cs with
          | some i => i + 1
          | none => 0
        let stop := match rfindSub cs ("</div>".toList) with
          | some i => i
          | none => cs.length
        .ok (((cs.drop start).take (stop - start)).asString)
      else .ok inlined

/-- Rust `str::trim`: remove leading and trailing whitespace. (Rust trims the
Unicode White_Space class; the model uses the ASCII whitespace subset, on
which the two agree for the data this repository handles. Defined
structurally so that it evaluates by kernel reduction.) -/
def rustTrim (s : String) : String :=
  ((s.toList.dropWhile Char.isWhitespace).reverse.dropWhile
    Char.isWhitespace).reverse.asString

/-- Rust `render::split_attachments`: split on newlines, trim, drop blanks,
resolve against the template directory. (Rust `str::lines` plus `trim`;
the trailing-empty-segment and `\r` differences are erased by the
trim-and-filter.) -/
def split_attachments (rendered : String) (template_dir : String) : List String :=
  (((rendered.splitOn "\n").map rustTrim).filter (fun s => s ≠ "")).map
    (pathJoin template_dir)

/-- Rust `render::render_context`: render the fields in source order
(to, subject, cc, bcc, body), resolve CSS, then derive
`(html_body, text_body)` from the effective body format, then attachments. -/
def render_context (ext : RenderExt) (t : Template) (context : Ctx)
    (template_dir : String) : Except MailnirError RenderedEmail :=
  match render_field ext.hbRender "to" t.«to» context with
  | .error e => .error e
  | .ok to_v =>
  match render_field ext.hbRender "subject" t.subject context with
  | .error e => .error e
  | .ok subject_v =>
  match renderOptField ext.hbRender "cc" t.cc context with
  | .error e => .error e
  | .ok cc_v =>
  match renderOptField ext.hbRender "bcc" t.bcc context with
  | .error e => .error e
  | .ok bcc_v =>
  match render_field ext.hbRender "body" t.body context with
  | .error e => .error e
  | .ok rendered_body =>
  match resolve_css ext t template_dir with
  | .error e => .error e
  | .ok css =>
  match
    (match effective_body_format t with
      | .markdown =>
        match apply_css ext.inlineFragment (ext.mdToHtml rendered_body) css with
        | .error e => .error e
        | .ok html => .ok (some html, strip_html html)
      | .html =>
        match apply_css ext.inlineFragment rendered_body css with
        | .error e => .error e
        | .ok html => .ok (some html, strip_html html)
      | .text => .ok (none, rendered_body) :
      Except MailnirError (Option String × String))
  with
  | .error e => .error e
  | .ok bodies =>
  match
    (match t.attachments with
      | none => .ok []
      | some tmpl =>
        (render_field ext.hbRender "attachments" tmpl context).map
          (fun s => split_attachments s template_dir) :
      Except MailnirError (List String))
  with
  | .error e => .error e
  | .ok attachments_v =>
    .ok ⟨to_v, cc_v, bcc_v, subject_v, bodies.1, bodies.2, attachments_v⟩

/-- External functions for concrete render runs: handlebars on a template
containing no handlebars directives returns it verbatim (strict mode and the
context are irrelevant), which the constant-free fixtures below rely on;
markdown and css-inline externals are never reached by those fixtures. -/
def litExt : RenderExt :=
  ⟨fun s _ => .ok s, fun s => s, fun _ _ => .ok "", fun _ => .error .notFound⟩

def tmplC3 : Template :=
  ⟨[("p", cfgPrimary)], "a@b.com", none, none, "s", "&lt;x", none, some .html, none, none⟩

def tmplC3t : Template :=
  ⟨[("p", cfgPrimary)], "a@b.com", none, none, "s", "hello", none, some .text, none, none⟩

/-- Rust `validate::JoinFailureDetail`. -/
inductive JoinFailureDetail where
  | MissingMatch : JoinFailureDetail
  | AmbiguousMatch : Nat → JoinFailureDetail
  deriving DecidableEq

/-- Rust `validate::ValidationIssue`. Paths are modelled as strings. -/
inductive ValidationIssue where
  | UnresolvedVariable : String → String → ValidationIssue
  | JoinFailure : String → JoinFailureDetail → ValidationIssue
  | InvalidEmail : String → String → ValidationIssue
  | AttachmentNotFound : String → ValidationIssue
  | RequiredFieldEmpty : String → ValidationIssue
  | StylesheetNotFound : String → ValidationIssue
  | CssInlineError : String → ValidationIssue
  deriving DecidableEq

/-- Rust `validate::check_required`: emit `RequiredFieldEmpty` when the value is
empty after trimming. -/
def check_required (field : String) (value : String)
    (issues : List ValidationIssue) : List ValidationIssue :=
  if rustTrim value = "" then issues ++ [.RequiredFieldEmpty field] else issues

/-- Rust `validate::check_email`: emit `InvalidEmail` when the external RFC 5322
mailbox-list parser (`lettre`, passed as `parseOk`) rejects the value. -/
def check_email (parseOk : String → Bool) (field : String) (value : String)
    (issues : List ValidationIssue) : List ValidationIssue :=
  if parseOk value = false then issues ++ [.InvalidEmail field value] else issues

/-- The `if let Some(v) = &rendered.cc { if !v.trim().is_empty() { check_email } }`
pattern used for `cc` and `bcc` in `post_render_checks`. -/
def check_optional_email (parseOk : String → Bool) (field : String)
    (value : Option String) (issues : List ValidationIssue) : List ValidationIssue :=
  match value with
  | some v => if rustTrim v ≠ "" then check_email parseOk field v issues else issues
  | none => issues

def post_render_checks (parseOk : String → Bool) (pathExists : String → Bool)
    (rendered : RenderedEmail) (issues0 : List ValidationIssue) :
    List ValidationIssue :=
  let issues1 := check_required "to" rendered.«to» issues0
  let issues2 := check_required "subject" rendered.subject issues1
  let issues3 := check_required "body" rendered.text_body issues2
  let issues4 :=
    if rustTrim rendered.«to» ≠ "" then check_email parseOk "to" rendered.«to» issues3
    else issues3
  let issues5 := check_optional_email parseOk "cc" rendered.cc issues4
  let issues6 := check_optional_email parseOk "bcc" rendered.bcc issues5
  issues6 ++
    (rendered.attachments.filter (fun p => pathExists p = false)).map
      (fun p => .AttachmentNotFound p)

def renderedC6 : RenderedEmail := ⟨"", none, none, "s", none, "b", []⟩

/-- Rust `smtp::Encryption`. -/
inductive Encryption where
  | none : Encryption
  | startTls : Encryption
  | tls : Encryption
  deriving DecidableEq

/-- Rust `smtp::SmtpProfile`. The Rust field `from` is named `fromAddr` because
`from` is a Lean keyword. -/
structure SmtpProfile where
  name : String
  host : String
  port : Nat
  encryption : Encryption
  fromAddr : String
  parallelism : Nat
  deriving DecidableEq

/-- Rust `smtp::SmtpCredentials`. -/
structure SmtpCredentials where
  username : String
  password : String
  deriving DecidableEq

/-- Rust `smtp::SendResult`. -/
structure SendResult where
  entry_index : Nat
  recipient : String
  success : Bool
  error : Option String
  deriving DecidableEq

/-- Rust `smtp::SendReport`. -/
structure SendReport where
  results : List SendResult
  deriving DecidableEq

/-- External collaborators and scheduling oracles of
`smtp::send_all_with_progress`: transport construction (`build_transport`),
lettre message construction (`build_message`), the outcome of each entry's
network send including its internal retries (`send_with_retry`), and the
value of the shared cancellation flag as observed at the before-spawn check
and at the after-permit check of each entry. Errors are modelled by their
display strings. -/
structure DispatchExt (Transport Msg : Type) where
  buildTransport : SmtpProfile → SmtpCredentials → Except String Transport
  buildMessage : RenderedEmail → String → Nat → Except String Msg
  sendOutcome : Nat → Msg → Except String Unit
  cancelAtSpawn : Nat → Bool
  cancelAtPermit : Nat → Bool

/-- Rust `smtp::send_all_with_progress`, sequentialized over the scheduling
oracles: transport failure marks every entry failed with the construction
error and returns before any message is built or sent; otherwise messages
are pre-built, entries cancelled at spawn time are diverted, each spawned
task re-checks the flag after acquiring its permit and then sends, and the
report lists task results in spawn order followed by the
spawn-time-cancelled entries, exactly as the Rust collection loop does. -/
def send_all_with_progress {Transport Msg : Type} (ext : DispatchExt Transport Msg)
    (emails : List RenderedEmail) (profile : SmtpProfile)
    (credentials : SmtpCredentials) : SendReport :=
  match ext.buildTransport profile credentials with
  | .error e =>
    { results := (enumFrom 0 emails).map (fun p =>
        ⟨p.1, p.2.«to», false, some e⟩) }
  | .ok _t =>
    let pre_built := (enumFrom 0 emails).map (fun p =>
      (p.1, p.2.«to», ext.buildMessage p.2 profile.fromAddr p.1))
    let cancelled_results : List SendResult :=
      (pre_built.filter (fun q => ext.cancelAtSpawn q.1)).map
        (fun q => ⟨q.1, q.2.1, false, some "cancelled"⟩)
    let task_results : List SendResult :=
      (pre_built.filter (fun q => !ext.cancelAtSpawn q.1)).map
        (fun q =>
          if ext.cancelAtPermit q.1 then ⟨q.1, q.2.1, false, some "cancelled"⟩
          else
            match q.2.2 with
            | .ok msg =>
              match ext.sendOutcome q.1 msg with
              | .ok _ => ⟨q.1, q.2.1, true, none⟩
              | .error e => ⟨q.1, q.2.1, false, some e⟩
            | .error e => ⟨q.1, q.2.1, false, some e⟩)
    { results := task_results ++ cancelled_results }

/-- Rust `smtp::send_all`: `send_all_with_progress` with no cancellation token and
no progress callback (both flag checks then read `false`). -/
def send_all {Transport Msg : Type} (ext : DispatchExt Transport Msg)
    (emails : List RenderedEmail) (profile : SmtpProfile)
    (credentials : SmtpCredentials) : SendReport :=
  send_all_with_progress
    { ext with cancelAtSpawn := fun _ => false, cancelAtPermit := fun _ => false }
    emails profile credentials

def extC7 : DispatchExt Unit Unit :=
  ⟨fun _ _ => .error "connect fail", fun _ _ _ => .ok (), fun _ _ => .ok (),
   fun _ => false, fun _ => false⟩

def emailC7 : RenderedEmail := ⟨"a@b.com", none, none, "s", none, "b", []⟩

def profC7 : SmtpProfile := ⟨"p", "smtp.example.com", 587, .startTls, "s@example.com", 1⟩

def credC7 : SmtpCredentials := ⟨"u", "pw"⟩

/-- Rust `MAX_ATTEMPTS` in `smtp::send_with_retry`. -/
def MAX_ATTEMPTS : Nat := 3

/-- Rust `RETRY_DELAY` in `smtp::send_with_retry`, in milliseconds. -/
def RETRY_DELAY_MS : Nat := 500

/-- Rust `smtp::is_transient_error`: the error display string starts with the
SMTP response code 421 or 452 (`str::starts_with`, modelled on characters). -/
def is_transient_error (e : String) : Bool :=
  "421".toList.isPrefixOf e.toList || "452".toList.isPrefixOf e.toList

/-- Result of `smtp::send_with_retry`, instrumented with the number of
`transport.send` attempts made and the list of sleep durations taken
between attempts. -/
structure RetryOutcome where
  result : Except String Unit
  attemptsMade : Nat
  delays : List Nat

/-- The `for attempt in 0..MAX_ATTEMPTS` loop of `smtp::send_with_retry`,
structurally recursive on the remaining iteration count
(`remaining = MAX_ATTEMPTS - attempt`). `attemptResult k` is the outcome of
the k-th `transport.send` call. A success returns `Ok`; an error retries
after a fixed sleep only while `attempt + 1 < MAX_ATTEMPTS` and the error is
transient, and is returned as-is otherwise. The zero-fuel case is the
`Err(last_err.unwrap())` after the loop, which is unreachable because the
final iteration always returns. -/
def retryLoop (attemptResult : Nat → Except String Unit) :
    Nat → Nat → Option String → RetryOutcome
  | 0, attempt, last_err => ⟨.error (last_err.getD ""), attempt, []⟩
  | remaining + 1, attempt, _last_err =>
    match attemptResult attempt with
    | .ok _ => ⟨.ok (), attempt + 1, []⟩
    | .error e =>
      if attempt + 1 < MAX_ATTEMPTS ∧ is_transient_error e = true then
        let rest := retryLoop attemptResult remaining (attempt + 1) (some e)
        ⟨rest.result, rest.attemptsMade, RETRY_DELAY_MS :: rest.delays⟩
      else ⟨.error e, attempt + 1, []⟩

/-- Rust `smtp::send_with_retry`. -/
def send_with_retry (attemptResult : Nat → Except String Unit) : RetryOutcome :=
  retryLoop attemptResult MAX_ATTEMPTS 0 none

def fC8 : Nat → Except String Unit := fun _ => .error "550 mailbox unavailable"

/-- The effective dispatch parallelism,
`Semaphore::new(profile.parallelism.max(1))`. -/
def effective_parallelism (profile : SmtpProfile) : Nat :=
  max profile.parallelism 1

/-- Abstract state of the dispatch semaphore (`tokio::sync::Semaphore`):
available permits plus the number of tasks currently holding a permit —
each task of `send_all_with_progress` holds one permit for the whole
duration of its network send, so `inFlight` counts in-flight sends. -/
structure SemState where
  available : Nat
  inFlight : Nat
  deriving DecidableEq

/-- Permit discipline of the dispatch tasks: a task acquires one permit
(possible only while one is available) before its network send and releases
it when the send finishes. -/
inductive SemStep : SemState → SemState → Prop
  | acquire (s : SemState) (h : 0 < s.available) :
      SemStep s ⟨s.available - 1, s.inFlight + 1⟩
  | release (s : SemState) (h : 0 < s.inFlight) :
      SemStep s ⟨s.available + 1, s.inFlight - 1⟩

/-- States reachable from a fresh semaphore of capacity `cap` with no send
in flight, under any interleaving of acquisitions and releases. -/
def SemReachable (cap : Nat) (s : SemState) : Prop :=
  Relation.ReflTransGen SemStep ⟨cap, 0⟩ s

def profC9 : SmtpProfile := ⟨"p", "h", 25, .none, "f@x", 3⟩

example : build_contexts_lenient tmplC2 srcC2 =
    .ok [.ok ctxC2row0, .error (.JoinMissingMatch "inst" 1)] := rfl

example : (build_contexts_lenient tmplC4a srcsC4).map (List.map Except.isOk) = .ok [true] := rfl

example : (build_contexts_lenient tmplC4b srcsC4).map (List.map Except.isOk) = .ok [false] := rfl

example : tmplC4a.sources.Perm tmplC4b.sources := by decide

example : (build_contexts_lenient tmplC4b srcsC4) = .ok [.error (.JoinMissingMatch "b" 0)] := rfl

example : build_contexts_lenient tmplC5 [("p", .array [.object []]), ("g", .number 5)] =
    .ok [.ok [("p", .object []), ("g", .number 5)]] := rfl

example : build_contexts_lenient tmplC5 [("p", .array [.object []])] =
    .ok [.ok [("p", .object [])]] := rfl

/-- C1: for a secondary namespace of cardinality one (`many` not `Some(true)`),
per primary row: zero matching candidate rows yields `JoinMissingMatch` with the
namespace and row index; exactly one match binds that row into the context under
the namespace name (and the loop continues); two or more matches yields
`JoinAmbiguousMatch` carrying the exact match count. -/
theorem applySecondaries_cardinality_one
    (entryIndex : Nat) (ctx : Ctx) (s : SecondarySource) (rest : List SecondarySource)
    (hmany : s.cfg.many ≠ some true) :
    (secondary_matches s ctx = [] →
      applySecondaries entryIndex ctx (s :: rest) =
        .error (.JoinMissingMatch s.name entryIndex)) ∧
    (∀ m, secondary_matches s ctx = [m] →
      applySecondaries entryIndex ctx (s :: rest) =
        applySecondaries entryIndex (ctxInsert ctx s.name m) rest) ∧
    (2 ≤ (secondary_matches s ctx).length →
      applySecondaries entryIndex ctx (s :: rest) =
        .error (.JoinAmbiguousMatch s.name entryIndex (secondary_matches s ctx).length)) := by
  have hm : (s.cfg.many == some true) = false := by
    simp only [beq_eq_false_iff_ne, ne_eq]
    exact hmany
  refine ⟨?_, ?_, ?_⟩
  · intro h
    simp only [applySecondaries, hm, Bool.false_eq_true, if_false, h]
  · intro m h
    simp only [applySecondaries, hm, Bool.false_eq_true, if_false, h]
  · intro h
    simp only [applySecondaries, hm, Bool.false_eq_true, if_false]
    rcases hl : secondary_matches s ctx with _ | ⟨a, _ | ⟨b, t⟩⟩ <;>
      rw [hl] at h <;> simp_all

theorem predicate_holds_iff (row : Value) (ctx : Ctx) (k r : String) :
    predicate_holds row ctx (k, r) = true ↔
      ∃ ns fld e a, splitOnceDot r = some (ns, fld) ∧
        (ctxGet ctx ns).bind (fun nsv => nsv.get fld) = some e ∧
        row.get k = some a ∧ Value.beq e a = true := by
  constructor
  · intro h
    unfold predicate_holds at h
    split at h
    · cases h
    · next ns fld hsp =>
      split at h
      · next e a he ha => exact ⟨ns, fld, e, a, hsp, he, ha, h⟩
      · cases h
  · rintro ⟨ns, fld, e, a, hsp, he, ha, hbeq⟩
    unfold predicate_holds
    simp only [hsp, he, ha]
    exact hbeq

/-- C10: a join predicate holds for a candidate row only when the reference
splits on a dot and both the candidate field and the referenced context field
are present and structurally equal; a missing dot or an absent side (including
two absent sides) never matches, so a cardinality-one join whose candidates all
lack the join key yields `JoinMissingMatch` instead of binding a row. -/
theorem predicates_match_absent_never_matches :
    (∀ row joinMap ctx, predicates_match row joinMap ctx = true →
      ∀ k r, (k, r) ∈ joinMap →
        ∃ ns fld e a, splitOnceDot r = some (ns, fld) ∧
          (ctxGet ctx ns).bind (fun nsv => nsv.get fld) = some e ∧
          row.get k = some a ∧ Value.beq e a = true) ∧
    (∀ row joinMap ctx k r, (k, r) ∈ joinMap →
      (splitOnceDot r = none ∨ row.get k = none ∨
        ∀ ns fld, splitOnceDot r = some (ns, fld) →
          (ctxGet ctx ns).bind (fun nsv => nsv.get fld) = none) →
      predicates_match row joinMap ctx = false) ∧
    (∀ entryIndex ctx s rest, s.cfg.many ≠ some true →
      (∃ k r, (k, r) ∈ s.cfg.join.getD [] ∧ ∀ row₂ ∈ s.rows, row₂.get k = none) →
      applySecondaries entryIndex ctx (s :: rest) =
        .error (.JoinMissingMatch s.name entryIndex)) := by
  have hfail : ∀ (row : Value) (ctx : Ctx) (k r : String),
      (splitOnceDot r = none ∨ row.get k = none ∨
        ∀ ns fld, splitOnceDot r = some (ns, fld) →
          (ctxGet ctx ns).bind (fun nsv => nsv.get fld) = none) →
      predicate_holds row ctx (k, r) = false := by
    intro row ctx k r hcase
    rcases h : predicate_holds row ctx (k, r)
    · rfl
    · exfalso
      rcases (predicate_holds_iff row ctx k r).mp h with ⟨ns, fld, e, a, h1, h2, h3, _⟩
      rcases hcase with hc | hc | hc
      · rw [hc] at h1; cases h1
      · rw [hc] at h3; cases h3
      · rw [hc ns fld h1] at h2; cases h2
  refine ⟨?_, ?_, ?_⟩
  · intro row joinMap ctx hall k r hmem
    exact (predicate_holds_iff row ctx k r).mp ((List.all_eq_true.mp hall) (k, r) hmem)
  · intro row joinMap ctx k r hmem hcase
    rcases h : predicates_match row joinMap ctx
    · rfl
    · exfalso
      have := (List.all_eq_true.mp h) (k, r) hmem
      rw [hfail row ctx k r hcase] at this
      cases this
  · intro entryIndex ctx s rest hmany hex
    rcases hex with ⟨k, r, hmem, habs⟩
    have hnil : secondary_matches s ctx = [] := by
      unfold secondary_matches
      rw [List.filter_eq_nil_iff]
      intro row hrow
      rcases hall : predicates_match row (s.cfg.join.getD []) ctx
      · simp
      · exfalso
        have := (List.all_eq_true.mp hall) (k, r) hmem
        rw [hfail row ctx k r (Or.inr (Or.inl (habs row hrow)))] at this
        cases this
    have hm : (s.cfg.many == some true) = false := by
      simp only [beq_eq_false_iff_ne, ne_eq]; exact hmany
    simp only [applySecondaries, hm, Bool.false_eq_true, if_false, hnil]

/-- C2: `build_contexts_lenient` computes one result per primary row,
independently: the result list is a map of `build_single_context` over the
enumerated primary array, so each row's outcome depends only on that row's
entry and index; in particular, on the two-row fixture where row 0 joins and
row 1 has no match, it returns `[Ok(context), Err(JoinMissingMatch{row 1})]`. -/
theorem build_contexts_lenient_row_independent :
    (∀ t sources primaryName primaryArray secondarySources results,
      findPrimaryName t = some primaryName →
      (srcGet sources primaryName).bind Value.asArray = some primaryArray →
      validateSecondaries (secondaryCfgOf t primaryName) sources = .ok secondarySources →
      build_contexts_lenient t sources = .ok results →
      results = (enumFrom 0 primaryArray).map (fun p =>
        build_single_context primaryName p.2 p.1 (globalNamesOf t primaryName)
          secondarySources sources)) ∧
    build_contexts_lenient tmplC2 srcC2 =
      .ok [.ok ctxC2row0, .error (.JoinMissingMatch "inst" 1)] := by
  constructor
  · intro t sources pn pa ss results h1 h2 h3 h4
    unfold build_contexts_lenient at h4
    simp only [h1, h2, h3] at h4
    exact (Except.ok.inj h4).symm
  · rfl

/-- C4 counterexample: two templates whose source maps hold the same
declarations (a permutation of each other) but in different hash-map iteration
orders produce different per-row outcomes for the same row-sets (row 0 joins
under one order and is a `JoinMissingMatch` under the other), because a
secondary namespace may join against another secondary. Since Rust's
`HashMap` does not preserve declaration order, namespace evaluation order is
not the template's source declaration order as the claim states. -/
theorem build_contexts_lenient_order_counterexample :
    tmplC4a.sources.Perm tmplC4b.sources ∧
    (build_contexts_lenient tmplC4a srcsC4).map (List.map Except.isOk) = .ok [true] ∧
    (build_contexts_lenient tmplC4b srcsC4).map (List.map Except.isOk) = .ok [false] ∧
    build_contexts_lenient tmplC4a srcsC4 ≠ build_contexts_lenient tmplC4b srcsC4 := by
  refine ⟨by decide, rfl, rfl, ?_⟩
  intro h
  have h1 : (build_contexts_lenient tmplC4a srcsC4).map (List.map Except.isOk) =
      .ok [true] := rfl
  have h2 : (build_contexts_lenient tmplC4b srcsC4).map (List.map Except.isOk) =
      .ok [false] := rfl
  rw [h, h2] at h1
  simp at h1

/-- C4 amended: for a fixed `(template, row_sets)` value the join is a pure
function, so repeated calls produce identical per-row outcomes; candidate
matching order is row-set order (`many`-bound arrays are order-preserving
filters of the secondary row set) and ambiguous-match counts are exactly the
filter length. Namespace evaluation order is the iteration order of the
sources hash map, which is not guaranteed to be declaration order. -/
theorem build_contexts_lenient_deterministic_amended :
    (∀ t₁ t₂ (s₁ s₂ : SrcMap), t₁ = t₂ → s₁ = s₂ →
      build_contexts_lenient t₁ s₁ = build_contexts_lenient t₂ s₂) ∧
    (∀ s ctx, secondary_matches s ctx =
        s.rows.filter (fun r => predicates_match r (s.cfg.join.getD []) ctx) ∧
      (secondary_matches s ctx).Sublist s.rows) ∧
    (∀ i ctx s rest, s.cfg.many = some true →
      applySecondaries i ctx (s :: rest) =
        applySecondaries i (ctxInsert ctx s.name (.array (secondary_matches s ctx))) rest) ∧
    (∀ i ctx s rest, s.cfg.many ≠ some true → 2 ≤ (secondary_matches s ctx).length →
      applySecondaries i ctx (s :: rest) =
        .error (.JoinAmbiguousMatch s.name i (secondary_matches s ctx).length)) := by
  refine ⟨fun t1 t2 s1 s2 ht hs => by rw [ht, hs],
    fun s ctx => ⟨rfl, List.filter_sublist _⟩, ?_, ?_⟩
  · intro i ctx s rest hmany
    simp only [applySecondaries, hmany, beq_self_eq_true, if_true]
  · intro i ctx s rest hmany hlen
    have hm : (s.cfg.many == some true) = false := by
      simp only [beq_eq_false_iff_ne, ne_eq]; exact hmany
    simp only [applySecondaries, hm, Bool.false_eq_true, if_false]
    rcases hl : secondary_matches s ctx with _ | ⟨a, _ | ⟨b, tl⟩⟩ <;>
      rw [hl] at hlen <;> simp_all

theorem validateSecondaries_error_iff (cfgs : List (String × SourceConfig)) (sources : SrcMap) :
    (∃ e, validateSecondaries cfgs sources = .error e) ↔
      ∃ p ∈ cfgs, (srcGet sources p.1).bind Value.asArray = none := by
  induction cfgs with
  | nil => simp [validateSecondaries]
  | cons hd tl ih =>
    obtain ⟨nsName, cfg⟩ := hd
    rcases h : (srcGet sources nsName).bind Value.asArray with _ | arr
    · simp only [validateSecondaries, h]
      constructor
      · intro _
        exact ⟨(nsName, cfg), List.mem_cons_self _ _, h⟩
      · intro _
        exact ⟨.InvalidDataShape nsName "secondary source must be an array", rfl⟩
    · simp only [validateSecondaries, h]
      rcases hv : validateSecondaries tl sources with e | tail
      · simp only [Except.map]
        constructor
        · intro _
          rcases ih.mp ⟨e, hv⟩ with ⟨p, hp, hfail⟩
          exact ⟨p, List.mem_cons_of_mem _ hp, hfail⟩
        · intro _
          exact ⟨e, rfl⟩
      · simp only [Except.map]
        constructor
        · rintro ⟨e, he⟩
          cases he
        · rintro ⟨p, hp, hfail⟩
          rcases List.mem_cons.mp hp with rfl | hp2
          · rw [h] at hfail
            cases hfail
          · rcases ih.mpr ⟨p, hp2, hfail⟩ with ⟨e, he⟩
            rw [hv] at he
            cases he

/-- C5 amended: context building fails the whole call exactly when no
namespace is marked primary, or the primary namespace's backing value is
missing or not an array, or some joined (secondary) namespace's backing value
is missing or not an array. Global namespaces are not checked, and elements
are not checked to be objects. -/
theorem build_contexts_lenient_structural_amended (t : Template) (sources : SrcMap) :
    (∃ e, build_contexts_lenient t sources = .error e) ↔
      (findPrimaryName t = none ∨
       ∃ pn, findPrimaryName t = some pn ∧
         ((srcGet sources pn).bind Value.asArray = none ∨
          ∃ p ∈ secondaryCfgOf t pn, (srcGet sources p.1).bind Value.asArray = none)) := by
  unfold build_contexts_lenient
  split
  · next hp =>
    exact ⟨fun _ => Or.inl hp, fun _ => ⟨_, rfl⟩⟩
  · next pn hp =>
    split
    · next ha =>
      exact ⟨fun _ => Or.inr ⟨pn, hp, Or.inl ha⟩, fun _ => ⟨_, rfl⟩⟩
    · next pa ha =>
      split
      · next e hv =>
        exact ⟨fun _ => Or.inr ⟨pn, hp, Or.inr ((validateSecondaries_error_iff _ _).mp ⟨e, hv⟩)⟩,
          fun _ => ⟨e, rfl⟩⟩
      · next ss hv =>
        constructor
        · rintro ⟨e, he⟩
          cases he
        · rintro (hnone | ⟨pn2, hpn2, hrest⟩)
          · rw [hp] at hnone
            cases hnone
          · rw [hp] at hpn2
            rcases Option.some.inj hpn2 with rfl
            rcases hrest with hfail | hsec
            · rw [ha] at hfail
              cases hfail
            · rcases (validateSecondaries_error_iff _ _).mpr hsec with ⟨e2, he2⟩
              rw [hv] at he2
              cases he2

theorem build_contexts_lenient_structural_amended_witness :
    ∃ e, build_contexts_lenient tmplNoPrim [] = .error e :=
  (build_contexts_lenient_structural_amended tmplNoPrim []).mpr (Or.inl rfl)

/-- C5 counterexample: with a declared global (non-primary, non-joined)
namespace `g` whose backing value is a non-array (`5`) or missing entirely,
the call does not abort structurally: it succeeds, binding the non-array
value as-is into every context and silently skipping the missing one. -/
theorem build_contexts_lenient_global_unchecked_counterexample :
    build_contexts_lenient tmplC5 [("p", .array [.object []]), ("g", .number 5)] =
      .ok [.ok [("p", .object []), ("g", .number 5)]] ∧
    build_contexts_lenient tmplC5 [("p", .array [.object []])] =
      .ok [.ok [("p", .object [])]] := ⟨rfl, rfl⟩

theorem applySecondaries_cardinality_one_witness :
    applySecondaries 0 ctxC1 [secInstC1] =
      applySecondaries 0
        (ctxInsert ctxC1 "inst" (.object [("class_id", .number 1), ("name", .string "A")])) [] :=
  (applySecondaries_cardinality_one 0 ctxC1 secInstC1 [] (by decide)).2.1 _ rfl

theorem build_contexts_lenient_row_independent_witness :
    ([.ok ctxC2row0, .error (.JoinMissingMatch "inst" 1)] :
        List (Except MailnirError Ctx)) =
      (enumFrom 0 paC2).map (fun p =>
        build_single_context "classes" p.2 p.1 (globalNamesOf tmplC2 "classes") ssC2 srcC2) :=
  build_contexts_lenient_row_independent.1 tmplC2 srcC2 "classes" paC2 ssC2 _ rfl rfl rfl rfl

theorem build_contexts_lenient_deterministic_amended_witness :
    applySecondaries 0 ctxC1
      [⟨"kids", ⟨none, some [("class_id", "classes.id")], some true⟩, []⟩] =
      applySecondaries 0 (ctxInsert ctxC1 "kids" (.array [])) [] :=
  build_contexts_lenient_deterministic_amended.2.2.1 0 ctxC1 _ [] rfl

theorem predicates_match_absent_never_matches_witness :
    applySecondaries 0 [("p", .object [("id", .number 1)])] [secC10] =
      .error (.JoinMissingMatch "s" 0) :=
  predicates_match_absent_never_matches.2.2 0 _ secC10 [] (by decide)
    ⟨"pid", "p.id", by decide, by
      intro row hrow
      rcases List.mem_singleton.mp hrow with rfl
      rfl⟩

example : strip_html "<h1>Hi</h1>" = "Hi" := rfl

example : strip_html "&lt;x" = "<x" := rfl

theorem countLt_stripTags (b : Bool) (s : List Char) : countLt (stripTags b s) = 0 := by
  induction s generalizing b with
  | nil => rfl
  | cons c rest ih =>
    by_cases h1 : c = '<'
    · simp [stripTags, h1, ih]
    · by_cases h2 : c = '>'
      · simp [stripTags, h1, h2, ih]
      · cases b
        · simpa [stripTags, h1, h2, countLt, List.filter_cons] using ih false
        · simp [stripTags, h1, h2, ih]

/-- C3 counterexample: a successfully rendered html-format message whose body
is the literal text `&lt;x` (no handlebars directives, no CSS) has `html_body`
present but its `text_body` is `<x`, which contains one `<` character —
entity decoding in `strip_html` reintroduces `<`, so markdown/HTML
`text_body` values are not always free of `<`. -/
theorem render_context_text_body_counterexample :
    effective_body_format tmplC3 = BodyFormat.html ∧
    (render_context litExt tmplC3 [] ".").map
      (fun e => (e.html_body.isSome, countLt e.text_body.toList)) = .ok (true, 1) :=
  ⟨rfl, rfl⟩

/-- C3 amended: for every successfully rendered message, `html_body` is
present iff the effective body format (declared, defaulting to markdown) is
markdown or HTML; for text format `html_body` is absent and `text_body` is the
rendered body unmodified; for markdown/HTML `text_body` is `strip_html` of the
final HTML, whose tag-stripping pass emits zero `<` characters — any `<` in
`text_body` can only arise from the subsequent entity decoding. -/
theorem render_context_body_format_amended
    (ext : RenderExt) (t : Template) (context : Ctx) (template_dir : String)
    (email : RenderedEmail)
    (h : render_context ext t context template_dir = .ok email) :
    (email.html_body.isSome = true ↔ effective_body_format t ≠ BodyFormat.text) ∧
    (effective_body_format t = BodyFormat.text →
      email.html_body = none ∧
      render_field ext.hbRender "body" t.body context = .ok email.text_body) ∧
    (∀ hb, email.html_body = some hb →
      email.text_body = strip_html hb ∧ countLt (stripTags false hb.toList) = 0) := by
  unfold render_context at h
  split at h
  · cases h
  rename_i _x1 to_v hto
  split at h
  · cases h
  rename_i _x2 subject_v hsubject
  split at h
  · cases h
  rename_i _x3 cc_v hcc
  split at h
  · cases h
  rename_i _x4 bcc_v hbcc
  split at h
  · cases h
  rename_i _x5 rendered_body hbody
  split at h
  · cases h
  rename_i _x6 css_v hcss
  split at h
  · cases h
  rename_i _x7 bodies hbodies
  split at h
  · cases h
  rename_i _x8 atts hatts
  rcases Except.ok.inj h with rfl
  split at hbodies
  · rename_i hfmt
    split at hbodies
    · cases hbodies
    · rename_i html_v hinl
      rcases Except.ok.inj hbodies with rfl
      refine ⟨by simp [hfmt], by simp [hfmt], ?_⟩
      intro hb hhb
      rcases Option.some.inj hhb with rfl
      exact ⟨rfl, countLt_stripTags false _⟩
  · rename_i hfmt
    split at hbodies
    · cases hbodies
    · rename_i html_v hinl
      rcases Except.ok.inj hbodies with rfl
      refine ⟨by simp [hfmt], by simp [hfmt], ?_⟩
      intro hb hhb
      rcases Option.some.inj hhb with rfl
      exact ⟨rfl, countLt_stripTags false _⟩
  · rename_i hfmt
    rcases Except.ok.inj hbodies with rfl
    exact ⟨by simp [hfmt], fun _ => ⟨rfl, hbody⟩, fun hb hhb => by cases hhb⟩

theorem render_context_body_format_amended_witness :
    ((⟨"a@b.com", none, none, "s", none, "hello", []⟩ : RenderedEmail).html_body = none) ∧
    render_field litExt.hbRender "body" tmplC3t.body [] =
      .ok ((⟨"a@b.com", none, none, "s", none, "hello", []⟩ : RenderedEmail).text_body) :=
  (render_context_body_format_amended litExt tmplC3t [] "."
    ⟨"a@b.com", none, none, "s", none, "hello", []⟩ rfl).2.1 rfl

theorem mem_check_required (i : ValidationIssue) (field value : String)
    (issues : List ValidationIssue) :
    i ∈ check_required field value issues ↔
      i ∈ issues ∨ (rustTrim value = "" ∧ i = .RequiredFieldEmpty field) := by
  unfold check_required
  split_ifs with h <;> simp [h]

theorem mem_check_email (parseOk : String → Bool) (i : ValidationIssue)
    (field value : String) (issues : List ValidationIssue) :
    i ∈ check_email parseOk field value issues ↔
      i ∈ issues ∨ (parseOk value = false ∧ i = .InvalidEmail field value) := by
  unfold check_email
  split_ifs with h <;> simp [h]

theorem mem_guard_email (cond : Prop) [Decidable cond] (parseOk : String → Bool)
    (i : ValidationIssue) (field value : String) (issues : List ValidationIssue) :
    i ∈ (if cond then check_email parseOk field value issues else issues) ↔
      i ∈ issues ∨ (cond ∧ parseOk value = false ∧ i = .InvalidEmail field value) := by
  split_ifs with h <;> simp [mem_check_email, h]

theorem mem_check_optional_email (parseOk : String → Bool) (field : String)
    (value : Option String) (i : ValidationIssue) (issues : List ValidationIssue) :
    i ∈ check_optional_email parseOk field value issues ↔
      i ∈ issues ∨ (∃ v, value = some v ∧ rustTrim v ≠ "" ∧ parseOk v = false ∧
        i = .InvalidEmail field v) := by
  rcases value with _ | v
  · simp [check_optional_email]
  · simp only [check_optional_email]
    rw [mem_guard_email]
    simp only [Option.some.injEq, exists_eq_left']

theorem attachIssue_iff (pathExists : String → Bool) (l : List String)
    (i : ValidationIssue) :
    (∃ a, (a ∈ l ∧ pathExists a = false) ∧ ValidationIssue.AttachmentNotFound a = i) ↔
      (∃ p, p ∈ l ∧ pathExists p = false ∧ i = ValidationIssue.AttachmentNotFound p) := by
  constructor
  · rintro ⟨p, ⟨h1, h2⟩, h3⟩
    exact ⟨p, h1, h2, h3.symm⟩
  · rintro ⟨p, h1, h2, h3⟩
    exact ⟨p, ⟨h1, h2⟩, h3.symm⟩

theorem postIssues_mem (parseOk pathExists : String → Bool)
    (rendered : RenderedEmail) (i : ValidationIssue) :
    i ∈ post_render_checks parseOk pathExists rendered [] ↔
      ((rustTrim rendered.«to» = "" ∧ i = .RequiredFieldEmpty "to") ∨
       (rustTrim rendered.subject = "" ∧ i = .RequiredFieldEmpty "subject") ∨
       (rustTrim rendered.text_body = "" ∧ i = .RequiredFieldEmpty "body") ∨
       (rustTrim rendered.«to» ≠ "" ∧ parseOk rendered.«to» = false ∧
         i = .InvalidEmail "to" rendered.«to») ∨
       (∃ c, rendered.cc = some c ∧ rustTrim c ≠ "" ∧ parseOk c = false ∧
         i = .InvalidEmail "cc" c) ∨
       (∃ b, rendered.bcc = some b ∧ rustTrim b ≠ "" ∧ parseOk b = false ∧
         i = .InvalidEmail "bcc" b) ∨
       (∃ p, p ∈ rendered.attachments ∧ pathExists p = false ∧
         i = .AttachmentNotFound p)) := by
  unfold post_render_checks
  rw [List.mem_append, mem_check_optional_email, mem_check_optional_email,
    mem_guard_email, mem_check_required, mem_check_required, mem_check_required,
    List.mem_map]
  simp only [List.mem_filter, List.not_mem_nil, false_or, decide_eq_true_eq]
  rw [attachIssue_iff]
  simp only [or_assoc]

/-- C6: for a rendered row, if the rendered `to` is empty after trimming then
the checks emit `RequiredFieldEmpty{to}` and never emit `InvalidEmail{to}`;
and an `InvalidEmail` issue for `to`, `cc` or `bcc` can only arise when the
respective rendered value is non-empty after trimming (and the external
address parser rejected it). -/
theorem post_render_checks_exclusivity
    (parseOk pathExists : String → Bool) (rendered : RenderedEmail) :
    (rustTrim rendered.«to» = "" →
      ValidationIssue.RequiredFieldEmpty "to" ∈
        post_render_checks parseOk pathExists rendered [] ∧
      ∀ v, ValidationIssue.InvalidEmail "to" v ∉
        post_render_checks parseOk pathExists rendered []) ∧
    (∀ v, ValidationIssue.InvalidEmail "to" v ∈
        post_render_checks parseOk pathExists rendered [] →
      rustTrim rendered.«to» ≠ "" ∧ v = rendered.«to» ∧ parseOk rendered.«to» = false) ∧
    (∀ v, ValidationIssue.InvalidEmail "cc" v ∈
        post_render_checks parseOk pathExists rendered [] →
      ∃ c, rendered.cc = some c ∧ rustTrim c ≠ "" ∧ v = c ∧ parseOk c = false) ∧
    (∀ v, ValidationIssue.InvalidEmail "bcc" v ∈
        post_render_checks parseOk pathExists rendered [] →
      ∃ b, rendered.bcc = some b ∧ rustTrim b ≠ "" ∧ v = b ∧ parseOk b = false) := by
  refine ⟨?_, ?_, ?_, ?_⟩
  · intro hto
    refine ⟨(postIssues_mem parseOk pathExists rendered _).mpr (Or.inl ⟨hto, rfl⟩), ?_⟩
    intro v hv
    rcases (postIssues_mem parseOk pathExists rendered _).mp hv with
      ⟨_, h⟩ | ⟨_, h⟩ | ⟨_, h⟩ | ⟨hne, _, _⟩ | ⟨c, _, _, _, h⟩ | ⟨b, _, _, _, h⟩ | ⟨p, _, _, h⟩
    · cases h
    · cases h
    · cases h
    · exact hne hto
    · exact absurd (ValidationIssue.InvalidEmail.inj h).1 (by decide)
    · exact absurd (ValidationIssue.InvalidEmail.inj h).1 (by decide)
    · cases h
  · intro v hv
    rcases (postIssues_mem parseOk pathExists rendered _).mp hv with
      ⟨_, h⟩ | ⟨_, h⟩ | ⟨_, h⟩ | ⟨hne, hp, h⟩ | ⟨c, _, _, _, h⟩ | ⟨b, _, _, _, h⟩ | ⟨p, _, _, h⟩
    · cases h
    · cases h
    · cases h
    · rcases ValidationIssue.InvalidEmail.inj h with ⟨-, rfl⟩
      exact ⟨hne, rfl, hp⟩
    · exact absurd (ValidationIssue.InvalidEmail.inj h).1 (by decide)
    · exact absurd (ValidationIssue.InvalidEmail.inj h).1 (by decide)
    · cases h
  · intro v hv
    rcases (postIssues_mem parseOk pathExists rendered _).mp hv with
      ⟨_, h⟩ | ⟨_, h⟩ | ⟨_, h⟩ | ⟨_, _, h⟩ | ⟨c, hc, ht, hp, h⟩ | ⟨b, _, _, _, h⟩ | ⟨p, _, _, h⟩
    · cases h
    · cases h
    · cases h
    · exact absurd (ValidationIssue.InvalidEmail.inj h).1 (by decide)
    · rcases ValidationIssue.InvalidEmail.inj h with ⟨-, hvc⟩
      exact ⟨c, hc, ht, hvc, hp⟩
    · exact absurd (ValidationIssue.InvalidEmail.inj h).1 (by decide)
    · cases h
  · intro v hv
    rcases (postIssues_mem parseOk pathExists rendered _).mp hv with
      ⟨_, h⟩ | ⟨_, h⟩ | ⟨_, h⟩ | ⟨_, _, h⟩ | ⟨c, _, _, _, h⟩ | ⟨b, hb, ht, hp, h⟩ | ⟨p, _, _, h⟩
    · cases h
    · cases h
    · cases h
    · exact absurd (ValidationIssue.InvalidEmail.inj h).1 (by decide)
    · exact absurd (ValidationIssue.InvalidEmail.inj h).1 (by decide)
    · rcases ValidationIssue.InvalidEmail.inj h with ⟨-, hvb⟩
      exact ⟨b, hb, ht, hvb, hp⟩
    · cases h

theorem post_render_checks_exclusivity_witness :
    ValidationIssue.RequiredFieldEmpty "to" ∈
      post_render_checks (fun _ => true) (fun _ => true) renderedC6 [] ∧
    ValidationIssue.InvalidEmail "to" "" ∉
      post_render_checks (fun _ => true) (fun _ => true) renderedC6 [] :=
  ⟨((post_render_checks_exclusivity (fun _ => true) (fun _ => true) renderedC6).1
      (by decide)).1,
   ((post_render_checks_exclusivity (fun _ => true) (fun _ => true) renderedC6).1
      (by decide)).2 ""⟩

theorem enumFrom_length {α : Type} (i : Nat) (l : List α) :
    (enumFrom i l).length = l.length := by
  induction l generalizing i with
  | nil => rfl
  | cons x xs ih => simp [enumFrom, ih]

/-- C7: `send_all` / `send_all_with_progress` total functions returning a
`SendReport` (never an error value); when transport construction fails, every
message in the batch is marked failed with that same construction error, the
report covers every entry, and the result is independent of the message
builder, the network send outcome and the cancellation flags — no per-row
connection attempt is made. -/
theorem send_all_transport_failure {Transport Msg : Type}
    (ext : DispatchExt Transport Msg) (emails : List RenderedEmail)
    (profile : SmtpProfile) (credentials : SmtpCredentials) (e : String)
    (h : ext.buildTransport profile credentials = .error e) :
    send_all_with_progress ext emails profile credentials =
      { results := (enumFrom 0 emails).map (fun p => ⟨p.1, p.2.«to», false, some e⟩) } ∧
    (send_all_with_progress ext emails profile credentials).results.length =
      emails.length ∧
    (∀ (bm : RenderedEmail → String → Nat → Except String Msg)
        (so : Nat → Msg → Except String Unit) (cs cp : Nat → Bool),
      send_all_with_progress
        (DispatchExt.mk ext.buildTransport bm so cs cp) emails profile credentials =
      send_all_with_progress ext emails profile credentials) ∧
    send_all ext emails profile credentials =
      send_all_with_progress ext emails profile credentials := by
  have key : ∀ (ext2 : DispatchExt Transport Msg),
      ext2.buildTransport profile credentials = .error e →
      send_all_with_progress ext2 emails profile credentials =
        { results := (enumFrom 0 emails).map
            (fun p => ⟨p.1, p.2.«to», false, some e⟩) } := by
    intro ext2 h2
    unfold send_all_with_progress
    rw [h2]
  refine ⟨key ext h, ?_, ?_, ?_⟩
  · rw [key ext h]
    simp [enumFrom_length]
  · intro bm so cs cp
    rw [key ext h, key (DispatchExt.mk ext.buildTransport bm so cs cp) h]
  · rw [key ext h]
    unfold send_all
    rw [key (DispatchExt.mk ext.buildTransport ext.buildMessage ext.sendOutcome
      (fun _ => false) (fun _ => false)) h]

theorem send_all_transport_failure_witness :
    send_all_with_progress extC7 [emailC7] profC7 credC7 =
      { results := [⟨0, "a@b.com", false, some "connect fail"⟩] } :=
  (send_all_transport_failure extC7 [emailC7] profC7 credC7 "connect fail" rfl).1

/-- C8: a network send failing with a transient SMTP error (response code
421 or 452) is retried for the same message up to 3 attempts total with a
fixed 500 ms delay between attempts, and the last error is returned when all
attempts fail; any other error is returned immediately after the failing
attempt with no further retries. -/
theorem send_with_retry_policy (attemptResult : Nat → Except String Unit) :
    (∀ e, attemptResult 0 = .error e → is_transient_error e = false →
      send_with_retry attemptResult = ⟨.error e, 1, []⟩) ∧
    (attemptResult 0 = .ok () →
      send_with_retry attemptResult = ⟨.ok (), 1, []⟩) ∧
    (∀ e0, attemptResult 0 = .error e0 → is_transient_error e0 = true →
      attemptResult 1 = .ok () →
      send_with_retry attemptResult = ⟨.ok (), 2, [RETRY_DELAY_MS]⟩) ∧
    (∀ e0 e1, attemptResult 0 = .error e0 → is_transient_error e0 = true →
      attemptResult 1 = .error e1 → is_transient_error e1 = false →
      send_with_retry attemptResult = ⟨.error e1, 2, [RETRY_DELAY_MS]⟩) ∧
    (∀ e0 e1, attemptResult 0 = .error e0 → is_transient_error e0 = true →
      attemptResult 1 = .error e1 → is_transient_error e1 = true →
      attemptResult 2 = .ok () →
      send_with_retry attemptResult =
        ⟨.ok (), 3, [RETRY_DELAY_MS, RETRY_DELAY_MS]⟩) ∧
    (∀ e0 e1 e2, attemptResult 0 = .error e0 → is_transient_error e0 = true →
      attemptResult 1 = .error e1 → is_transient_error e1 = true →
      attemptResult 2 = .error e2 →
      send_with_retry attemptResult =
        ⟨.error e2, 3, [RETRY_DELAY_MS, RETRY_DELAY_MS]⟩) := by
  refine ⟨?_, ?_, ?_, ?_, ?_, ?_⟩
  · intro e h0 ht
    simp [send_with_retry, retryLoop, MAX_ATTEMPTS, h0, ht]
  · intro h0
    simp [send_with_retry, retryLoop, MAX_ATTEMPTS, h0]
  · intro e0 h0 ht0 h1
    simp [send_with_retry, retryLoop, MAX_ATTEMPTS, h0, ht0, h1]
  · intro e0 e1 h0 ht0 h1 ht1
    simp [send_with_retry, retryLoop, MAX_ATTEMPTS, h0, ht0, h1, ht1]
  · intro e0 e1 h0 ht0 h1 ht1 h2
    simp [send_with_retry, retryLoop, MAX_ATTEMPTS, h0, ht0, h1, ht1, h2]
  · intro e0 e1 e2 h0 ht0 h1 ht1 h2
    simp [send_with_retry, retryLoop, MAX_ATTEMPTS, h0, ht0, h1, ht1, h2]

theorem send_with_retry_policy_witness :
    send_with_retry fC8 = ⟨.error "550 mailbox unavailable", 1, []⟩ :=
  (send_with_retry_policy fC8).1 "550 mailbox unavailable" rfl rfl

/-- C9: in every state reachable by the dispatch tasks' permit discipline
from a fresh semaphore sized to the effective parallelism
`max(1, profile.parallelism)`, the number of in-flight network sends is at
most that effective parallelism, regardless of batch size. -/
theorem dispatch_in_flight_bounded (profile : SmtpProfile) (s : SemState)
    (h : SemReachable (effective_parallelism profile) s) :
    s.inFlight ≤ effective_parallelism profile ∧
    1 ≤ effective_parallelism profile := by
  have inv : s.available + s.inFlight = effective_parallelism profile := by
    induction h with
    | refl => rfl
    | tail _ step ih =>
      cases step with
      | acquire h2 =>
        simp only at ih ⊢
        omega
      | release h2 =>
        simp only at ih ⊢
        omega
  exact ⟨by omega, le_max_right _ _⟩

theorem dispatch_in_flight_bounded_witness :
    (⟨2, 1⟩ : SemState).inFlight ≤ effective_parallelism profC9 ∧
    1 ≤ effective_parallelism profC9 :=
  dispatch_in_flight_bounded profC9 ⟨2, 1⟩
    (Relation.ReflTransGen.single (SemStep.acquire ⟨3, 0⟩ (by decide)))
